import Mathlib

/-!
Verification of the pstack DWARF engine (`src/dwarf.cc`) against its
natural-language specification.

The development shallowly embeds the byte-level readers, the LEB128
decoders, the line-number virtual machine, the call-frame-information
(CFI) interpreter, the expression evaluator, the CFA computation and the
one-step unwinder of `src/dwarf.cc`.  Conventions used throughout:

* A backing store (`Reader::io`) is a finite byte buffer, modelled as a
  `List Nat`; `io[off]?` is the byte at absolute offset `off`.  A read
  past the end of the buffer corresponds to `Reader::readObj` throwing
  an `Exception`, modelled as `Except.error Err.exc`.
* Machine integers are modelled as `Nat`/`Int` with explicit reductions
  `% 2^w` exactly where the C computation wraps.  `uintmax_t`,
  `Elf_Addr` and `Elf_Off` are 64 bits; `unsigned` and `int` are
  32 bits; the build is the 64-bit one (`ELF_BITS = 64`), so the default
  address length is 8 bytes.
* `abort()` in the source is modelled as `Except.error Err.aborted`,
  distinct from a recoverable `Exception`.  Undefined behaviour that the
  source can reach (`std::stack::top` on an empty stack) is modelled as
  `Except.error Err.ub`.
* Loops of the source whose trip count is not structurally bounded are
  given an explicit fuel argument; every theorem below instantiates the
  fuel large enough that the fuel-exhaustion branch is never taken.
-/

namespace Pstack

/-- Outcomes of the C++ control flow that do not return a value:
`exc` is a thrown (recoverable) `Exception`, `aborted` is a call to
`abort()`, `ub` is reachable undefined behaviour (empty-stack `top`),
and `fuelOut` is the artificial fuel-exhaustion marker of the embedding
(never produced under the fuel bounds used in the theorems). -/
inductive Err : Type
  | exc : Err
  | aborted : Err
  | ub : Err
  | fuelOut : Err
deriving DecidableEq

instance {ε α : Type} [DecidableEq ε] [DecidableEq α] : DecidableEq (Except ε α) :=
  fun a b =>
    match a, b with
    | .ok x, .ok y =>
        if h : x = y then .isTrue (by rw [h])
        else .isFalse (by intro hc; cases hc; exact h rfl)
    | .error x, .error y =>
        if h : x = y then .isTrue (by rw [h])
        else .isFalse (by intro hc; cases hc; exact h rfl)
    | .ok _, .error _ => .isFalse (by intro hc; cases hc)
    | .error _, .ok _ => .isFalse (by intro hc; cases hc)

/-- One byte read through `Reader::readObj(off, &c, 1)`: the byte at
offset `off` of the backing buffer, together with the advanced cursor.
This is `DWARFReader::getu8`. -/
def readU8 (io : List Nat) (off : Nat) : Except Err (Nat × Nat) :=
  match io[off]? with
  | none => .error .exc
  | some b => .ok (b, off + 1)

/-- `DWARFReader::getu16`: two bytes, little-endian. -/
def getu16 (io : List Nat) (off : Nat) : Except Err (Nat × Nat) :=
  match io[off]?, io[off + 1]? with
  | some b0, some b1 => .ok (b0 ||| b1 <<< 8, off + 2)
  | _, _ => .error .exc

/-- `DWARFReader::getu32`: four bytes, little-endian. -/
def getu32 (io : List Nat) (off : Nat) : Except Err (Nat × Nat) :=
  match io[off]?, io[off + 1]?, io[off + 2]?, io[off + 3]? with
  | some b0, some b1, some b2, some b3 =>
      .ok (b0 ||| b1 <<< 8 ||| b2 <<< 16 ||| b3 <<< 24, off + 4)
  | _, _, _, _ => .error .exc

/-- Helper for `getuint`: the little-endian value of `len` bytes
starting at `off` (the source reads the bytes into a buffer and folds
them most-significant-first, which is the same value). -/
def leBytes (io : List Nat) (off : Nat) : Nat → Except Err Nat
  | 0 => .ok 0
  | len + 1 =>
      match io[off]?, leBytes io (off + 1) len with
      | some b, .ok rest => .ok (b ||| rest <<< 8)
      | _, _ => .error .exc

/-- `DWARFReader::getuint(len)`: `len`-byte little-endian unsigned
value; `len > 16` throws. -/
def getuint (io : List Nat) (off len : Nat) : Except Err (Nat × Nat) :=
  if len > 16 then .error .exc
  else
    match leBytes io off len with
    | .ok v => .ok (v, off + len)
    | .error e => .error e

/-- The contribution of one LEB128 byte to the accumulator, as computed
by `result |= (byte & 0x7f) << *shift` in `DWARFReader::getuleb128shift`.
`byte & 0x7f` is promoted to 32-bit `int`, so the shift wraps in 32 bits
(shift counts are masked to 5 bits) and the possibly negative 32-bit
result is sign-extended when widened to the 64-bit `uintmax_t`
accumulator; this models the prevalent two's-complement behaviour of
that computation on a 64-bit target. -/
def ulebContrib (b shift : Nat) : Nat :=
  let low := ((b &&& 0x7f) <<< (shift % 32)) % 2 ^ 32
  if low < 2 ^ 31 then low else low + (2 ^ 64 - 2 ^ 32)

/-- The loop of `DWARFReader::getuleb128shift`, returning
`(result, shift, isSigned, newOff)`.  The fuel only bounds the
iteration count; `getuleb128shift` supplies enough fuel that it can
never run out before a read fails. -/
def getuleb128Aux (io : List Nat) : Nat → Nat → Nat → Nat →
    Except Err (Nat × Nat × Bool × Nat)
  | 0, _, _, _ => .error .fuelOut
  | fuel + 1, off, result, shift =>
      match io[off]? with
      | none => .error .exc
      | some b =>
          let result' := result ||| ulebContrib b shift
          if b &&& 0x80 = 0 then .ok (result', shift + 7, b &&& 0x40 ≠ 0, off + 1)
          else getuleb128Aux io fuel (off + 1) result' (shift + 7)

/-- `DWARFReader::getuleb128shift`.  The loop consumes at least one byte
per iteration, so `io.length + 1` iterations always suffice before a
read fails. -/
def getuleb128shift (io : List Nat) (off : Nat) :
    Except Err (Nat × Nat × Bool × Nat) :=
  getuleb128Aux io (io.length + 1) off 0 0

/-- `DWARFReader::getuleb128`: the decoded value and the new cursor. -/
def getuleb128 (io : List Nat) (off : Nat) : Except Err (Nat × Nat) :=
  match getuleb128shift io off with
  | .ok (v, _, _, off') => .ok (v, off')
  | .error e => .error e

/-- Reinterpret a 64-bit unsigned value as the signed `intmax_t` with
the same bit pattern. -/
def toInt64 (bits : Nat) : Int :=
  if bits < 2 ^ 63 then (bits : Int) else (bits : Int) - 2 ^ 64

/-- Reduce an `Int` to the 64-bit unsigned value with the same low
64 bits (conversion of a signed value to `uintmax_t`). -/
def toUint64 (v : Int) : Nat := (v % 2 ^ 64).toNat

/-- `DWARFReader::getsleb128`: take the unsigned decode, and if the
last byte had its sign bit (0x40) set, OR in `-((uintmax_t)1 << shift)`
before reinterpreting the bits as signed.  The 64-bit shift count is
masked to 6 bits as on the target. -/
def getsleb128 (io : List Nat) (off : Nat) : Except Err (Int × Nat) :=
  match getuleb128shift io off with
  | .ok (v, shift, isSigned, off') =>
      let bits := if isSigned then v ||| (2 ^ 64 - 2 ^ (shift % 64)) else v
      .ok (toInt64 bits, off')
  | .error e => .error e

/-- The loop of `DWARFReader::getstring`: read bytes until a NUL,
appending each to the accumulator; after appending the byte of
iteration `len`, `if (len > 2000) abort()`.  The recursion depth is
bounded by that abort, so `fuel = 2002` (supplied by `getstring`) never
runs out. -/
def getstringAux (io : List Nat) : Nat → Nat → Nat → List Nat →
    Except Err (List Nat × Nat)
  | 0, _, _, _ => .error .fuelOut
  | fuel + 1, off, len, acc =>
      match io[off]? with
      | none => .error .exc
      | some c =>
          if c = 0 then .ok (acc, off + 1)
          else if len > 2000 then .error .aborted
          else getstringAux io fuel (off + 1) (len + 1) (acc ++ [c])

/-- `DWARFReader::getstring`: the NUL-terminated byte string at `off`
and the cursor just past the terminator. -/
def getstring (io : List Nat) (off : Nat) : Except Err (List Nat × Nat) :=
  getstringAux io 2002 off 0 []

/-- `DWARFReader::getlength`: a 4-byte initial length; `0xffffffff`
switches to an 8-byte length; the remaining reserved values
`[0xfffffff0, 0xffffffff)` return 0. -/
def getlength (io : List Nat) (off : Nat) : Except Err (Nat × Nat) :=
  match getu32 io off with
  | .error e => .error e
  | .ok (length, o1) =>
      if length ≥ 0xfffffff0 then
        if length = 0xffffffff then getuint io o1 8
        else .ok (0, o1)
      else .ok (length, o1)

/-- The standard ULEB128 encoding of an unsigned value (the
specification side of the round-trip claim; the source contains no
encoder).  Structured with fuel so that it reduces definitionally;
10 bytes cover every value below `2^70`. -/
def encodeUlebFuel : Nat → Nat → List Nat
  | 0, v => [v % 0x80]
  | fuel + 1, v =>
      if v < 0x80 then [v] else (v % 0x80 + 0x80) :: encodeUlebFuel fuel (v / 0x80)

/-- The standard ULEB128 encoding (values below `2^70`). -/
def encodeUleb128 (v : Nat) : List Nat := encodeUlebFuel 10 v

/-- The standard SLEB128 encoding of a signed value: emit 7-bit groups
least-significant first (arithmetic shift right between groups) until
the remaining value is 0 with the sign bit clear, or −1 with the sign
bit set.  Fuel 10 covers every value of magnitude below `2^62`. -/
def encodeSlebFuel : Nat → Int → List Nat
  | 0, v => [(v % 128).toNat]
  | fuel + 1, v =>
      let b := (v % 128).toNat
      let v' := v / 128
      if (v' = 0 ∧ b &&& 0x40 = 0) ∨ (v' = -1 ∧ b &&& 0x40 ≠ 0) then [b]
      else (b + 0x80) :: encodeSlebFuel fuel v'

/-- The standard SLEB128 encoding (magnitudes below `2^62`). -/
def encodeSleb128 (v : Int) : List Nat := encodeSlebFuel 10 v

/-! ## CIE/FDE entry headers (`DwarfFrameInfo::decodeCIEFDEHdr`) -/

/-- The two frame sections, `enum FIType`. -/
inductive FIType : Type
  | FI_DEBUG_FRAME : FIType
  | FI_EH_FRAME : FIType
deriving DecidableEq

/-- `DwarfFrameInfo::isCIE`: an entry is a CIE when its id is
`0xffffffff` in `.debug_frame` or `0` in `.eh_frame`. -/
def isCIE (ty : FIType) (cieid : Nat) : Bool :=
  (ty = FIType.FI_DEBUG_FRAME ∧ cieid = 0xffffffff) ∨
    (ty = FIType.FI_EH_FRAME ∧ cieid = 0)

/-- The key under which `decodeCIEFDEHdr` looks up the referenced CIE
in the `cies` map for a non-CIE entry:
`cies.find(type == FI_EH_FRAME ? idoff - id : id)`, where `idoff` is
the offset of the `CIE_id` field itself (just after the initial
length) and the subtraction wraps in the unsigned 64-bit `Elf_Off`. -/
def cieLookupKey (ty : FIType) (idoff id : Nat) : Nat :=
  match ty with
  | .FI_EH_FRAME => (idoff + (2 ^ 64 - id % 2 ^ 64)) % 2 ^ 64
  | .FI_DEBUG_FRAME => id

/-- `DwarfFrameInfo::decodeCIEFDEHdr`: read the initial length (a zero
length ends the section, returned as `none`), then the `CIE_id` field
(4 bytes for DWARF version < 3, 8 otherwise — the call sites pass
`DwarfInfo::version = 2`).  The result carries the id, the CIE lookup
key used for a non-CIE entry, and the offset of the next entry
(`idoff + length`). -/
def decodeCIEFDEHdr (io : List Nat) (off version : Nat) (ty : FIType) :
    Except Err (Option (Nat × Option Nat × Nat)) :=
  match getlength io off with
  | .error e => .error e
  | .ok (length, idoff) =>
      if length = 0 then .ok none
      else
        match getuint io idoff (if version ≥ 3 then 8 else 4) with
        | .error e => .error e
        | .ok (id, _) =>
            .ok (some (id,
              (if isCIE ty id then none else some (cieLookupKey ty idoff id)),
              (idoff + length) % 2 ^ 64))

/-! ## The line-number program VM (`DwarfLineInfo::build`)

The claims under test cite the opcode-execution loop of
`DwarfLineInfo::build` (src/dwarf.cc:416–493) together with
`DwarfLineState::reset`.  The prologue-parsing part of `build`
(src/dwarf.cc:373–414) only fills in the header parameters consumed by
that loop, so the loop is embedded with those parameters gathered in a
record.  `state.file` is a pointer `&files[index]` in the source; it is
modelled by the index. -/

/-- The line-program header parameters used by the opcode loop, as
parsed by the prologue part of `DwarfLineInfo::build` (plus the
enclosing unit's address length, used by `DW_LNE_set_address`).
`default_is_stmt` is the raw header byte; assigning it to the one-bit
`is_stmt` field keeps its low bit. -/
structure LineParams : Type where
  min_insn_length : Nat
  default_is_stmt : Nat
  line_base : Int
  line_range : Nat
  opcode_base : Nat
  addrlen : Nat
deriving DecidableEq

/-- The line VM registers, `struct DwarfLineState` (`file` is the index
of the `files` entry the state points at). -/
structure DwarfLineState : Type where
  addr : Nat
  file : Nat
  line : Nat
  column : Nat
  is_stmt : Bool
  basic_block : Bool
  end_sequence : Bool
deriving DecidableEq

/-- `DwarfLineState::reset`: address 0, file index 1, line 1, column 0,
`is_stmt` from the header default, `basic_block` and `end_sequence`
clear. -/
def DwarfLineState.reset (P : LineParams) : DwarfLineState :=
  { addr := 0, file := 1, line := 1, column := 0,
    is_stmt := P.default_is_stmt % 2 = 1, basic_block := false,
    end_sequence := false }

/-- The `DwarfLineState(DwarfLineInfo *)` constructor simply calls
`reset`, so the initial state is the reset state. -/
def DwarfLineState.initial (P : LineParams) : DwarfLineState :=
  DwarfLineState.reset P

/-- Standard line opcodes.  Modelled from the spec: `src/` lacks
`dwarf/line_s.h`, which carries the numeric values of
`enum DwarfLineSOpcode`; these are the DWARF-standard opcode numbers
for the standard opcodes named in §4.5 of the specification. -/
def DW_LNS_copy : Nat := 1

def DW_LNS_advance_pc : Nat := 2

def DW_LNS_advance_line : Nat := 3

def DW_LNS_set_file : Nat := 4

def DW_LNS_set_column : Nat := 5

def DW_LNS_negate_stmt : Nat := 6

def DW_LNS_set_basic_block : Nat := 7

def DW_LNS_const_add_pc : Nat := 8

def DW_LNS_fixed_advance_pc : Nat := 9

/-- Extended line opcodes.  Modelled from the spec: `src/` lacks
`dwarf/line_e.h` (`enum DwarfLineEOpcode`); these are the
DWARF-standard sub-opcode numbers for the extended opcodes named in
§4.5 of the specification. -/
def DW_LNE_end_sequence : Nat := 1

def DW_LNE_set_address : Nat := 2

def DW_LNE_set_discriminator : Nat := 4

/-- The 32-bit two's-complement update of the `unsigned line` register
by a possibly negative increment. -/
def lineAdd (line : Nat) (incr : Int) : Nat := (((line : Int) + incr) % 2 ^ 32).toNat

/-- One iteration of the opcode loop of `DwarfLineInfo::build`:
dispatch on the byte at `off`, returning the new state, the new matrix
and the new cursor.  Branches follow src/dwarf.cc:418–492 line by
line; `abort()` calls in the `default` branches are `Err.aborted`. -/
def lineStep (P : LineParams) (io : List Nat) (s : DwarfLineState)
    (mat : List DwarfLineState) (off : Nat) :
    Except Err (DwarfLineState × List DwarfLineState × Nat) :=
  match readU8 io off with
  | .error e => .error e
  | .ok (c, o1) =>
      if c ≥ P.opcode_base then
        -- special opcode
        let adj := c - P.opcode_base
        let addrIncr := adj / P.line_range
        let lineIncr : Int := (adj % P.line_range : Nat) + P.line_base
        let s' := { s with addr := (s.addr + addrIncr * P.min_insn_length) % 2 ^ 64,
                           line := lineAdd s.line lineIncr }
        .ok ({ s' with basic_block := false }, mat ++ [s'], o1)
      else if c = 0 then
        -- extended opcode
        match getuleb128 io o1 with
        | .error e => .error e
        | .ok (_len, o2) =>
            match readU8 io o2 with
            | .error e => .error e
            | .ok (code, o3) =>
                if code = DW_LNE_end_sequence then
                  let s' := { s with end_sequence := true }
                  .ok (DwarfLineState.reset P, mat ++ [s'], o3)
                else if code = DW_LNE_set_address then
                  match getuint io o3 P.addrlen with
                  | .error e => .error e
                  | .ok (a, o4) => .ok ({ s with addr := a }, mat, o4)
                else if code = DW_LNE_set_discriminator then
                  match getuleb128 io o3 with
                  | .error e => .error e
                  | .ok (_, o4) => .ok (s, mat, o4)
                else .error .aborted
      else
        -- standard opcode
        if c = DW_LNS_const_add_pc then
          .ok ({ s with addr :=
            (s.addr + ((255 - P.opcode_base) / P.line_range) * P.min_insn_length) % 2 ^ 64 },
            mat, o1)
        else if c = DW_LNS_advance_pc then
          match getuleb128 io o1 with
          | .error e => .error e
          | .ok (v, o2) =>
              .ok ({ s with addr := (s.addr + v * P.min_insn_length) % 2 ^ 64 }, mat, o2)
        else if c = DW_LNS_fixed_advance_pc then
          match getu16 io o1 with
          | .error e => .error e
          | .ok (v, o2) =>
              .ok ({ s with addr := (s.addr + v * P.min_insn_length) % 2 ^ 64 }, mat, o2)
        else if c = DW_LNS_advance_line then
          match getsleb128 io o1 with
          | .error e => .error e
          | .ok (v, o2) => .ok ({ s with line := lineAdd s.line v }, mat, o2)
        else if c = DW_LNS_set_file then
          match getuleb128 io o1 with
          | .error e => .error e
          | .ok (v, o2) => .ok ({ s with file := v }, mat, o2)
        else if c = DW_LNS_copy then
          .ok ({ s with basic_block := false }, mat ++ [s], o1)
        else if c = DW_LNS_set_column then
          match getuleb128 io o1 with
          | .error e => .error e
          | .ok (v, o2) => .ok ({ s with column := v }, mat, o2)
        else if c = DW_LNS_negate_stmt then
          .ok ({ s with is_stmt := !s.is_stmt }, mat, o1)
        else if c = DW_LNS_set_basic_block then
          .ok ({ s with basic_block := true }, mat, o1)
        else .error .aborted

/-- The opcode loop `while (r.getOffset() < end)` of
`DwarfLineInfo::build`, iterating `lineStep`.  Returns the emitted
matrix and the final state. -/
def lineVMLoop (P : LineParams) (io : List Nat) (endOff : Nat) :
    Nat → DwarfLineState → List DwarfLineState → Nat →
    Except Err (List DwarfLineState × DwarfLineState)
  | 0, _, _, _ => .error .fuelOut
  | fuel + 1, s, mat, off =>
      if off < endOff then
        match lineStep P io s mat off with
        | .error e => .error e
        | .ok (s', mat', off') => lineVMLoop P io endOff fuel s' mat' off'
      else .ok (mat, s)

/-- Run the line VM from the initial state over the instruction bytes
in `[off, endOff)`, as `DwarfLineInfo::build` does after parsing the
prologue. -/
def lineVMRun (P : LineParams) (io : List Nat) (off endOff fuel : Nat) :
    Except Err (List DwarfLineState × DwarfLineState) :=
  lineVMLoop P io endOff fuel (DwarfLineState.initial P) [] off

/-! ## Call-frame information (`DwarfCIE::execInsns`, `DwarfCallFrame`) -/

/-- `enum DwarfRegisterType` (dwarf.h). -/
inductive DwarfRegisterType : Type
  | UNDEF | SAME | OFFSET | VAL_OFFSET
  | EXPRESSION | VAL_EXPRESSION | REG | ARCH
deriving DecidableEq

/-- `struct DwarfRegisterUnwind`: the rule tag together with the two
64-bit words of the union (`u1` holds `same`/`offset`/`reg`/`arch` and
`expression.offset`, which share the union's first word; `u2` holds
`expression.length`).  Writes through one union member leave the other
word unchanged, exactly as in the C object. -/
structure DwarfRegisterUnwind : Type where
  type : DwarfRegisterType
  u1 : Nat
  u2 : Nat
deriving DecidableEq

/-- `MAXREG` (dwarf.h). -/
def MAXREG : Nat := 128

/-- `struct DwarfCallFrame`: per-register rules plus the CFA rule.  The
register array is modelled as a function from the register number. -/
structure DwarfCallFrame : Type where
  registers : Nat → DwarfRegisterUnwind
  cfaReg : Nat
  cfaValue : DwarfRegisterUnwind

/-- The `DwarfCallFrame()` constructor: every register rule `UNDEF`,
`cfaReg = 0`, CFA rule `UNDEF`.  The union words are uninitialized in
the source and modelled as 0; no rule consumer reads them while the
tag is `UNDEF`. -/
def DwarfCallFrame.initial : DwarfCallFrame :=
  { registers := fun _ => ⟨.UNDEF, 0, 0⟩, cfaReg := 0, cfaValue := ⟨.UNDEF, 0, 0⟩ }

/-- Update one entry of a register-rule array. -/
def updReg (f : Nat → DwarfRegisterUnwind) (i : Nat) (v : DwarfRegisterUnwind) :
    Nat → DwarfRegisterUnwind :=
  fun j => if j = i then v else f j

/-- `offset * dataAlign` with a (possibly negative) `int` data-alignment
factor stored into the unsigned 64-bit `u.offset`. -/
def scaleOffset (offset : Nat) (dataAlign : Int) : Nat :=
  toUint64 ((offset : Int) * dataAlign)

/-- `enum DwarfCFAInstruction` (dwarf.h): the packed opcodes. -/
def DW_CFA_advance_loc : Nat := 0x40

def DW_CFA_offset : Nat := 0x80

def DW_CFA_restore : Nat := 0xc0

/-- `enum DwarfCFAInstruction` (dwarf.h): the low-6-bit opcodes. -/
def DW_CFA_nop : Nat := 0

def DW_CFA_set_loc : Nat := 1

def DW_CFA_advance_loc1 : Nat := 0x02

def DW_CFA_advance_loc2 : Nat := 0x03

def DW_CFA_advance_loc4 : Nat := 0x04

def DW_CFA_offset_extended : Nat := 0x05

def DW_CFA_restore_extended : Nat := 0x06

def DW_CFA_undefined : Nat := 0x07

def DW_CFA_same_value : Nat := 0x08

def DW_CFA_register : Nat := 0x09

def DW_CFA_remember_state : Nat := 0x0a

def DW_CFA_restore_state : Nat := 0x0b

def DW_CFA_def_cfa : Nat := 0x0c

def DW_CFA_def_cfa_register : Nat := 0x0d

def DW_CFA_def_cfa_offset : Nat := 0x0e

def DW_CFA_def_cfa_expression : Nat := 0x0f

def DW_CFA_expression : Nat := 0x10

def DW_CFA_offset_extended_sf : Nat := 0x11

def DW_CFA_def_cfa_sf : Nat := 0x12

def DW_CFA_def_cfa_offset_sf : Nat := 0x13

def DW_CFA_val_expression : Nat := 0x16

/-- The loop of `DwarfCIE::execInsns` (src/dwarf.cc:736–887): execute
CFI instructions starting at `off` while the reader is not exhausted
(`off ≠ endOff`) and `addr ≤ wantAddr`.  `dframe` is the default frame
used by the `restore` opcodes, `stack` the `remember_state` stack.
`abort()` branches (including the unhandled `DW_CFA_offset_extended_sf`
group and unknown opcodes) are `Err.aborted`; popping the empty
`remember_state` stack is `Err.ub`. -/
def execInsnsLoop (io : List Nat) (codeAlign : Nat) (dataAlign : Int)
    (addrLen : Nat) (dframe : DwarfCallFrame) (endOff wantAddr : Nat) :
    Nat → Nat → Nat → DwarfCallFrame → List DwarfCallFrame →
    Except Err DwarfCallFrame
  | 0, _, _, _, _ => .error .fuelOut
  | fuel + 1, off, addr, frame, stack =>
      if off = endOff ∨ wantAddr < addr then .ok frame
      else
        match readU8 io off with
        | .error e => .error e
        | .ok (rawOp, o1) =>
            let reg := rawOp &&& 0x3f
            let op := rawOp &&& 0xc0
            if op = DW_CFA_advance_loc then
              execInsnsLoop io codeAlign dataAlign addrLen dframe endOff wantAddr
                fuel o1 ((addr + reg * codeAlign) % 2 ^ 64) frame stack
            else if op = DW_CFA_offset then
              match getuleb128 io o1 with
              | .error e => .error e
              | .ok (offset, o2) =>
                  let u' := { frame.registers reg with
                    type := DwarfRegisterType.OFFSET, u1 := scaleOffset offset dataAlign }
                  execInsnsLoop io codeAlign dataAlign addrLen dframe endOff wantAddr
                    fuel o2 addr
                    { frame with registers := updReg frame.registers reg u' } stack
            else if op = DW_CFA_restore then
              execInsnsLoop io codeAlign dataAlign addrLen dframe endOff wantAddr
                fuel o1 addr
                { frame with registers := updReg frame.registers reg (dframe.registers reg) }
                stack
            else
              -- op = 0: dispatch on the low six bits
              let ope := rawOp &&& 0x3f
              if ope = DW_CFA_nop then
                execInsnsLoop io codeAlign dataAlign addrLen dframe endOff wantAddr
                  fuel o1 addr frame stack
              else if ope = DW_CFA_set_loc then
                match getuint io o1 addrLen with
                | .error e => .error e
                | .ok (a, o2) =>
                    execInsnsLoop io codeAlign dataAlign addrLen dframe endOff wantAddr
                      fuel o2 a frame stack
              else if ope = DW_CFA_advance_loc1 then
                match readU8 io o1 with
                | .error e => .error e
                | .ok (d, o2) =>
                    execInsnsLoop io codeAlign dataAlign addrLen dframe endOff wantAddr
                      fuel o2 ((addr + d * codeAlign) % 2 ^ 64) frame stack
              else if ope = DW_CFA_advance_loc2 then
                match getu16 io o1 with
                | .error e => .error e
                | .ok (d, o2) =>
                    execInsnsLoop io codeAlign dataAlign addrLen dframe endOff wantAddr
                      fuel o2 ((addr + d * codeAlign) % 2 ^ 64) frame stack
              else if ope = DW_CFA_advance_loc4 then
                match getu32 io o1 with
                | .error e => .error e
                | .ok (d, o2) =>
                    execInsnsLoop io codeAlign dataAlign addrLen dframe endOff wantAddr
                      fuel o2 ((addr + d * codeAlign) % 2 ^ 64) frame stack
              else if ope = DW_CFA_offset_extended then
                match getuleb128 io o1 with
                | .error e => .error e
                | .ok (r1, o2) =>
                    match getuleb128 io o2 with
                    | .error e => .error e
                    | .ok (offset, o3) =>
                        let u' := { frame.registers r1 with
                          type := DwarfRegisterType.OFFSET,
                          u1 := scaleOffset offset dataAlign }
                        execInsnsLoop io codeAlign dataAlign addrLen dframe endOff wantAddr
                          fuel o3 addr
                          { frame with registers := updReg frame.registers r1 u' } stack
              else if ope = DW_CFA_restore_extended then
                match getuleb128 io o1 with
                | .error e => .error e
                | .ok (r1, o2) =>
                    execInsnsLoop io codeAlign dataAlign addrLen dframe endOff wantAddr
                      fuel o2 addr
                      { frame with registers := updReg frame.registers r1 (dframe.registers r1) }
                      stack
              else if ope = DW_CFA_undefined then
                match getuleb128 io o1 with
                | .error e => .error e
                | .ok (r1, o2) =>
                    let u' := { frame.registers r1 with type := DwarfRegisterType.UNDEF }
                    execInsnsLoop io codeAlign dataAlign addrLen dframe endOff wantAddr
                      fuel o2 addr
                      { frame with registers := updReg frame.registers r1 u' } stack
              else if ope = DW_CFA_same_value then
                match getuleb128 io o1 with
                | .error e => .error e
                | .ok (r1, o2) =>
                    let u' := { frame.registers r1 with type := DwarfRegisterType.SAME }
                    execInsnsLoop io codeAlign dataAlign addrLen dframe endOff wantAddr
                      fuel o2 addr
                      { frame with registers := updReg frame.registers r1 u' } stack
              else if ope = DW_CFA_register then
                match getuleb128 io o1 with
                | .error e => .error e
                | .ok (r1, o2) =>
                    match getuleb128 io o2 with
                    | .error e => .error e
                    | .ok (r2, o3) =>
                        let u' := { frame.registers r1 with
                          type := DwarfRegisterType.REG, u1 := r2 }
                        execInsnsLoop io codeAlign dataAlign addrLen dframe endOff wantAddr
                          fuel o3 addr
                          { frame with registers := updReg frame.registers r1 u' } stack
              else if ope = DW_CFA_remember_state then
                execInsnsLoop io codeAlign dataAlign addrLen dframe endOff wantAddr
                  fuel o1 addr frame (frame :: stack)
              else if ope = DW_CFA_restore_state then
                match stack with
                | [] => .error .ub
                | f :: rest =>
                    execInsnsLoop io codeAlign dataAlign addrLen dframe endOff wantAddr
                      fuel o1 addr f rest
              else if ope = DW_CFA_def_cfa then
                match getuleb128 io o1 with
                | .error e => .error e
                | .ok (r1, o2) =>
                    match getuleb128 io o2 with
                    | .error e => .error e
                    | .ok (offset, o3) =>
                        let v' := { frame.cfaValue with
                          type := DwarfRegisterType.OFFSET, u1 := offset }
                        execInsnsLoop io codeAlign dataAlign addrLen dframe endOff wantAddr
                          fuel o3 addr { frame with cfaReg := r1, cfaValue := v' } stack
              else if ope = DW_CFA_def_cfa_sf then
                match getuleb128 io o1 with
                | .error e => .error e
                | .ok (r1, o2) =>
                    match getsleb128 io o2 with
                    | .error e => .error e
                    | .ok (offset, o3) =>
                        let v' := { frame.cfaValue with
                          type := DwarfRegisterType.OFFSET,
                          u1 := toUint64 (offset * dataAlign) }
                        execInsnsLoop io codeAlign dataAlign addrLen dframe endOff wantAddr
                          fuel o3 addr { frame with cfaReg := r1, cfaValue := v' } stack
              else if ope = DW_CFA_def_cfa_register then
                match getuleb128 io o1 with
                | .error e => .error e
                | .ok (r1, o2) =>
                    let v' := { frame.cfaValue with type := DwarfRegisterType.OFFSET }
                    execInsnsLoop io codeAlign dataAlign addrLen dframe endOff wantAddr
                      fuel o2 addr { frame with cfaReg := r1, cfaValue := v' } stack
              else if ope = DW_CFA_def_cfa_offset then
                match getuleb128 io o1 with
                | .error e => .error e
                | .ok (offset, o2) =>
                    let v' := { frame.cfaValue with
                      type := DwarfRegisterType.OFFSET, u1 := offset }
                    execInsnsLoop io codeAlign dataAlign addrLen dframe endOff wantAddr
                      fuel o2 addr { frame with cfaValue := v' } stack
              else if ope = DW_CFA_def_cfa_offset_sf then
                -- NOTE: the source reads this operand with getuleb128()
                match getuleb128 io o1 with
                | .error e => .error e
                | .ok (offset, o2) =>
                    let v' := { frame.cfaValue with
                      type := DwarfRegisterType.OFFSET,
                      u1 := scaleOffset offset dataAlign }
                    execInsnsLoop io codeAlign dataAlign addrLen dframe endOff wantAddr
                      fuel o2 addr { frame with cfaValue := v' } stack
              else if ope = DW_CFA_val_expression then
                match getuleb128 io o1 with
                | .error e => .error e
                | .ok (r1, o2) =>
                    match getuleb128 io o2 with
                    | .error e => .error e
                    | .ok (len, o3) =>
                        let u' := { frame.registers r1 with
                          type := DwarfRegisterType.VAL_EXPRESSION, u1 := o3, u2 := len }
                        execInsnsLoop io codeAlign dataAlign addrLen dframe endOff wantAddr
                          fuel (o3 + len) addr
                          { frame with registers := updReg frame.registers r1 u' } stack
              else if ope = DW_CFA_expression then
                match getuleb128 io o1 with
                | .error e => .error e
                | .ok (r1, o2) =>
                    match getuleb128 io o2 with
                    | .error e => .error e
                    | .ok (len, o3) =>
                        let u' := { frame.registers r1 with
                          type := DwarfRegisterType.EXPRESSION, u1 := o3, u2 := len }
                        execInsnsLoop io codeAlign dataAlign addrLen dframe endOff wantAddr
                          fuel (o3 + len) addr
                          { frame with registers := updReg frame.registers r1 u' } stack
              else if ope = DW_CFA_def_cfa_expression then
                match getuleb128 io o1 with
                | .error e => .error e
                | .ok (len, o2) =>
                    let v' := { frame.cfaValue with
                      type := DwarfRegisterType.EXPRESSION, u1 := o2, u2 := len }
                    execInsnsLoop io codeAlign dataAlign addrLen dframe endOff wantAddr
                      fuel (o2 + len) addr { frame with cfaValue := v' } stack
              else .error .aborted

/-- `DwarfCIE::execInsns`: when called with a nonzero `addr` or
`wantAddr`, first run the CIE's initial instructions
(`[cieInsOff, cieInsEnd)`) from address 0 against address 0 to obtain
the default frame, seed the working frame from it, then execute the
instructions in `[insOff, insEnd)`. -/
def execInsns (io : List Nat) (codeAlign : Nat) (dataAlign : Int) (addrLen : Nat)
    (cieInsOff cieInsEnd insOff insEnd addr wantAddr fuel : Nat) :
    Except Err DwarfCallFrame :=
  if addr = 0 ∧ wantAddr = 0 then
    execInsnsLoop io codeAlign dataAlign addrLen DwarfCallFrame.initial insEnd wantAddr
      fuel insOff addr DwarfCallFrame.initial []
  else
    match execInsnsLoop io codeAlign dataAlign addrLen DwarfCallFrame.initial cieInsEnd 0
        fuel cieInsOff 0 DwarfCallFrame.initial [] with
    | .error e => .error e
    | .ok dframe =>
        execInsnsLoop io codeAlign dataAlign addrLen dframe insEnd wantAddr
          fuel insOff addr dframe []

/-! ## DWARF expression evaluation (`dwarfEvalExpr`) -/

/-- Expression opcodes.  Modelled from the spec: `src/` lacks
`dwarf/ops.h` (`enum DwarfExpressionOp`); these are the DWARF-standard
opcode numbers for the operations named in §4.10 of the
specification. -/
def DW_OP_deref : Nat := 0x06

def DW_OP_const2s : Nat := 0x0b

def DW_OP_const4u : Nat := 0x0c

def DW_OP_const4s : Nat := 0x0d

def DW_OP_minus : Nat := 0x1c

def DW_OP_plus : Nat := 0x22

def DW_OP_breg0 : Nat := 0x70

def DW_OP_breg31 : Nat := 0x8f

/-- Sign-extend the low `bits` bits of `v` (with `v < 2 ^ bits`) into a
64-bit two's-complement word, as the `int16_t`/`int32_t` casts in
`dwarfEvalExpr` do before the value is pushed as an `Elf_Addr`. -/
def sext (bits v : Nat) : Nat :=
  if v < 2 ^ (bits - 1) then v else v + (2 ^ 64 - 2 ^ bits)

/-- `dwarfEvalExpr` (src/dwarf.cc:651–718): a post-fix machine over
64-bit words, reading opcodes from `[off, endOff)` of the object's
byte buffer, dereferencing through the process memory `mem` (a word
read at an address, `none` when unmapped — `readObj` then throws).
On exhaustion the source pops and returns the top of stack; the
returned pair is that value together with the remaining stack.
`std::stack::top`/`pop` on an empty stack is `Err.ub`; unknown opcodes
hit `abort()`. -/
def dwarfEvalExpr (io : List Nat) (mem : Nat → Option Nat) (regs : Nat → Nat) :
    Nat → Nat → Nat → List Nat → Except Err (Nat × List Nat)
  | 0, _, _, _ => .error .fuelOut
  | fuel + 1, off, endOff, stack =>
      if off = endOff then
        match stack with
        | [] => .error .ub
        | rv :: rest => .ok (rv, rest)
      else
        match readU8 io off with
        | .error e => .error e
        | .ok (op, o1) =>
            if op = DW_OP_deref then
              match stack with
              | [] => .error .ub
              | a :: rest =>
                  match mem a with
                  | none => .error .exc
                  | some v => dwarfEvalExpr io mem regs fuel o1 endOff (v % 2 ^ 64 :: rest)
            else if op = DW_OP_const2s then
              match getu16 io o1 with
              | .error e => .error e
              | .ok (v, o2) => dwarfEvalExpr io mem regs fuel o2 endOff (sext 16 v :: stack)
            else if op = DW_OP_const4u then
              match getu32 io o1 with
              | .error e => .error e
              | .ok (v, o2) => dwarfEvalExpr io mem regs fuel o2 endOff (v :: stack)
            else if op = DW_OP_const4s then
              match getu32 io o1 with
              | .error e => .error e
              | .ok (v, o2) => dwarfEvalExpr io mem regs fuel o2 endOff (sext 32 v :: stack)
            else if op = DW_OP_minus then
              match stack with
              | top :: second :: rest =>
                  dwarfEvalExpr io mem regs fuel o1 endOff
                    ((second + (2 ^ 64 - top % 2 ^ 64)) % 2 ^ 64 :: rest)
              | _ => .error .ub
            else if op = DW_OP_plus then
              match stack with
              | top :: second :: rest =>
                  dwarfEvalExpr io mem regs fuel o1 endOff ((second + top) % 2 ^ 64 :: rest)
              | _ => .error .ub
            else if DW_OP_breg0 ≤ op ∧ op ≤ DW_OP_breg31 then
              match getsleb128 io o1 with
              | .error e => .error e
              | .ok (offset, o2) =>
                  dwarfEvalExpr io mem regs fuel o2 endOff
                    ((regs (op - DW_OP_breg0) + toUint64 offset) % 2 ^ 64 :: stack)
            else .error .aborted

/-! ## CFA computation and one-step unwind
(`DwarfInfo::getCFA`, `dwarfUnwind`) -/

/-- `dwarfGetReg`. -/
def dwarfGetReg (regs : Nat → Nat) (regno : Nat) : Nat := regs regno

/-- `dwarfSetReg`. -/
def dwarfSetReg (regs : Nat → Nat) (regno regval : Nat) : Nat → Nat :=
  fun i => if i = regno then regval else regs i

/-- `DwarfInfo::getCFA` (src/dwarf.cc:1139–1166): dispatch on the CFA
rule.  `SAME`, `VAL_OFFSET`, `VAL_EXPRESSION`, `REG`, `UNDEF` and
`ARCH` call `abort()`.  `OFFSET` returns `regs[cfaReg] + offset`.
`EXPRESSION` runs `dwarfEvalExpr` on an empty stack — which itself
pops and returns the result — and then reads `stack.top()` of the
remaining stack (undefined behaviour when the evaluation left exactly
one value). -/
def getCFA (io : List Nat) (mem : Nat → Option Nat) (frame : DwarfCallFrame)
    (regs : Nat → Nat) (fuel : Nat) : Except Err Nat :=
  match frame.cfaValue.type with
  | .SAME => .error .aborted
  | .VAL_OFFSET => .error .aborted
  | .VAL_EXPRESSION => .error .aborted
  | .REG => .error .aborted
  | .UNDEF => .error .aborted
  | .ARCH => .error .aborted
  | .OFFSET => .ok ((dwarfGetReg regs frame.cfaReg + frame.cfaValue.u1) % 2 ^ 64)
  | .EXPRESSION =>
      match dwarfEvalExpr io mem regs fuel frame.cfaValue.u1
          (frame.cfaValue.u1 + frame.cfaValue.u2) [] with
      | .error e => .error e
      | .ok (_, stack) =>
          match stack with
          | [] => .error .ub
          | rv :: _ => .ok rv

/-- The per-register body of the unwind loop of `dwarfUnwind`
(src/dwarf.cc:1197–1231): apply register `i`'s rule to produce
`newRegs[i]`.  For the expression rules the source pushes the CFA,
evaluates (the evaluator pops its result), takes `stack.top()` of what
remains — undefined behaviour when nothing remains — performs the
dereference for `EXPRESSION` into a discarded local, and stores that
same `stack.top()`. -/
def applyUnwindReg (io : List Nat) (mem : Nat → Option Nat) (regs : Nat → Nat)
    (cfa : Nat) (frame : DwarfCallFrame) (fuel i : Nat) (newRegs : Nat → Nat) :
    Except Err (Nat → Nat) :=
  let u := frame.registers i
  match u.type with
  | .UNDEF => .ok (dwarfSetReg newRegs i (dwarfGetReg regs i))
  | .SAME => .ok (dwarfSetReg newRegs i (dwarfGetReg regs i))
  | .OFFSET =>
      match mem ((cfa + u.u1) % 2 ^ 64) with
      | none => .error .exc
      | some v => .ok (dwarfSetReg newRegs i (v % 2 ^ 64))
  | .REG => .ok (dwarfSetReg newRegs i (dwarfGetReg regs u.u1))
  | .VAL_EXPRESSION =>
      match dwarfEvalExpr io mem regs fuel u.u1 (u.u1 + u.u2) [cfa] with
      | .error e => .error e
      | .ok (_, stack) =>
          match stack with
          | [] => .error .ub
          | val :: _ => .ok (dwarfSetReg newRegs i val)
  | .EXPRESSION =>
      match dwarfEvalExpr io mem regs fuel u.u1 (u.u1 + u.u2) [cfa] with
      | .error e => .error e
      | .ok (_, stack) =>
          match stack with
          | [] => .error .ub
          | val :: _ =>
              match mem val with
              | none => .error .exc
              | some _ => .ok (dwarfSetReg newRegs i val)
  | .VAL_OFFSET => .error .aborted
  | .ARCH => .error .aborted

/-- The `for (i = 0; i < MAXREG; i++)` loop of `dwarfUnwind`, skipping
non-architectural registers. -/
def dwarfUnwindLoop (io : List Nat) (mem : Nat → Option Nat) (regs : Nat → Nat)
    (cfa : Nat) (frame : DwarfCallFrame) (fuel : Nat) (isArch : Nat → Bool) :
    List Nat → (Nat → Nat) → Except Err (Nat → Nat)
  | [], newRegs => .ok newRegs
  | i :: rest, newRegs =>
      if isArch i then
        match applyUnwindReg io mem regs cfa frame fuel i newRegs with
        | .error e => .error e
        | .ok newRegs' => dwarfUnwindLoop io mem regs cfa frame fuel isArch rest newRegs'
      else dwarfUnwindLoop io mem regs cfa frame fuel isArch rest newRegs

/-- The register-application stage of `dwarfUnwind`
(src/dwarf.cc:1190–1241), taking the frame row as given (the FDE
search and row computation of lines 1174–1188 produce it): compute the
CFA from the row, apply each architectural register's rule into a
fresh register file (the source's `newRegs` is uninitialized; the
non-architectural entries, which nothing reads, are modelled as 0),
restore the conventional stack pointer to the CFA when its rule is
`UNDEF`, and return the new registers with the value of the CIE's
return-address register `rar`. -/
def dwarfUnwind (io : List Nat) (mem : Nat → Option Nat) (isArch : Nat → Bool)
    (cfaRestore : Option Nat) (rar : Nat) (frame : DwarfCallFrame)
    (regs : Nat → Nat) (fuel : Nat) : Except Err ((Nat → Nat) × Nat) :=
  match getCFA io mem frame regs fuel with
  | .error e => .error e
  | .ok cfa =>
      match dwarfUnwindLoop io mem regs cfa frame fuel isArch
          (List.range MAXREG) (fun _ => 0) with
      | .error e => .error e
      | .ok newRegs =>
          let newRegs' :=
            match cfaRestore with
            | some sp =>
                if (frame.registers sp).type = .UNDEF then dwarfSetReg newRegs sp cfa
                else newRegs
            | none => newRegs
          .ok (newRegs', dwarfGetReg newRegs' rar)

/-- Modelled from the spec: `src/` lacks `dwarf/archreg.h`, which
enumerates the `REGMAP` entries and `CFA_RESTORE_REGNO`.  Per §6 of
the specification the per-architecture table lists exactly the DWARF
numbers honoured and distinguishes the stack-pointer register; on
x86-64 (the architecture of the spec's scenarios, whose registers are
`rsp`/`rip`) the mapped DWARF registers are 0–16 and the
CFA-restoration (stack-pointer) register is DWARF number 7 (`rsp`);
the return-address column is DWARF number 16. -/
def x8664IsArchReg (r : Nat) : Bool := r < 17

/-- Modelled from the spec: the x86-64 CFA-restoration register,
`CFA_RESTORE_REGNO` (DWARF 7, `rsp`). -/
def x8664CfaRestoreRegno : Nat := 7

/-! ## Lazily materialized indexes (`DwarfInfo::units`, `ranges`,
`pubnames`) -/

/-- The mutable fields of `class DwarfInfo` involved in lazy index
materialization: the three section handles (`info`, `arangesh`,
`pubnamesh`, each set to null once consumed) and the three index
containers they fill (`unitsm`, `aranges`, `pubnameUnits`).  The
per-section parsing loops are abstracted as functions from the section
to the updated container, supplied by the caller. -/
structure DwarfInfoCache (σ α β γ : Type) : Type where
  info : Option σ
  arangesh : Option σ
  pubnamesh : Option σ
  unitsm : α
  aranges : β
  pubnameUnits : γ

/-- `DwarfInfo::units` (src/dwarf.cc:233–245): if the `.debug_info`
section handle is still set, parse it into `unitsm` and clear the
handle; return `unitsm`. -/
def DwarfInfoCache.units {σ α β γ : Type} (parse : σ → α → α)
    (s : DwarfInfoCache σ α β γ) : DwarfInfoCache σ α β γ × α :=
  match s.info with
  | some sect =>
      let m := parse sect s.unitsm
      ({ s with info := none, unitsm := m }, m)
  | none => (s, s.unitsm)

/-- `DwarfInfo::ranges` (src/dwarf.cc:247–257): same pattern over
`.debug_aranges` into `aranges`. -/
def DwarfInfoCache.ranges {σ α β γ : Type} (parse : σ → β → β)
    (s : DwarfInfoCache σ α β γ) : DwarfInfoCache σ α β γ × β :=
  match s.arangesh with
  | some sect =>
      let m := parse sect s.aranges
      ({ s with arangesh := none, aranges := m }, m)
  | none => (s, s.aranges)

/-- `DwarfInfo::pubnames` (src/dwarf.cc:220–231): same pattern over
`.debug_pubnames` into `pubnameUnits`. -/
def DwarfInfoCache.pubnames {σ α β γ : Type} (parse : σ → γ → γ)
    (s : DwarfInfoCache σ α β γ) : DwarfInfoCache σ α β γ × γ :=
  match s.pubnamesh with
  | some sect =>
      let m := parse sect s.pubnameUnits
      ({ s with pubnamesh := none, pubnameUnits := m }, m)
  | none => (s, s.pubnameUnits)

/-! ## Concrete inputs used by the claims -/

/-- The line-program header parameters of the spec's scenario:
`min_insn_length = 1`, `default_is_stmt = 1`, `line_base = -3`,
`line_range = 12`, `opcode_base = 13`, address length 8. -/
def lineParamsEx : LineParams :=
  { min_insn_length := 1, default_is_stmt := 1, line_base := -3,
    line_range := 12, opcode_base := 13, addrlen := 8 }

/-- The frame row of the no-frame-pointer scenario: return-address
register (DWARF 16) rule `offset(-8)` (`u.offset` holds the already
data-alignment-scaled `-8` as an unsigned 64-bit word), every other
rule `undef`, CFA rule `rsp + 8` (register 7, offset 8). -/
def c1frame : DwarfCallFrame :=
  { registers := fun i =>
      if i = 16 then ⟨.OFFSET, 2 ^ 64 - 8, 0⟩ else ⟨.UNDEF, 0, 0⟩,
    cfaReg := 7, cfaValue := ⟨.OFFSET, 8, 0⟩ }

/-- The scenario's register file: `rsp` (DWARF 7) = `0x7fffdff8`. -/
def c1regs : Nat → Nat := fun i => if i = 7 then 0x7fffdff8 else 0

/-- The scenario's process memory as literally given by the claim: the
word at address `0x7fffe000` is `0x402000`; nothing else is mapped. -/
def c1memClaim : Nat → Option Nat :=
  fun a => if a = 0x7fffe000 then some 0x402000 else none

/-- The memory the scenario needs for the unwind to succeed: the
return-address slot sits at `CFA - 8 = 0x7fffdff8`. -/
def c1memFixed : Nat → Option Nat :=
  fun a => if a = 0x7fffdff8 then some 0x402000 else none

/-- A frame whose CFA rule is the expression `DW_OP_const4u 0x1000`
(bytes `[0x0c, 00, 10, 00, 00]` at offset 0, length 5). -/
def c10frame : DwarfCallFrame :=
  { registers := fun _ => ⟨.UNDEF, 0, 0⟩, cfaReg := 0,
    cfaValue := ⟨.EXPRESSION, 0, 5⟩ }

/-- A frame whose CFA rule is `register 3 + offset 5`. -/
def c10offsetFrame : DwarfCallFrame :=
  { registers := fun _ => ⟨.UNDEF, 0, 0⟩, cfaReg := 3,
    cfaValue := ⟨.OFFSET, 5, 0⟩ }

/-- A `.eh_frame` section image holding a non-CIE entry at file offset
`0x1040`: initial length `0x38`, then `CIE_id = 0x40`. -/
def c3io : List Nat :=
  List.replicate 0x1040 0 ++ [0x38, 0, 0, 0, 0x40, 0, 0, 0]

/-- A buffer whose first four bytes decode (little-endian) to the
reserved initial-length value `0xfffffff0`. -/
def c2io : List Nat := [0xf0, 0xff, 0xff, 0xff]

/-- A buffer starting with the 64-bit DWARF sentinel `0xffffffff`
followed by the 8-byte length 1. -/
def c2io64 : List Nat := [0xff, 0xff, 0xff, 0xff, 1, 0, 0, 0, 0, 0, 0, 0]

/-! ## Helper lemmas -/

/-- Indexing past a replicated prefix reaches the suffix. -/
lemma replicate_append_getElem (m k x : Nat) (l : List Nat) :
    (List.replicate m x ++ l)[m + k]? = l[k]? := by
  rw [List.getElem?_append_right (by simp)]
  simp

/-- The successful branch of the `getstring` loop: if the `n` bytes at
`off` are the nonzero `cs 0, …, cs (n-1)` and the byte after them is
NUL, with `len + n ≤ 2001` (so the abort guard never fires) and enough
fuel, the loop returns the accumulated prefix extended by those bytes
and the cursor past the NUL. -/
lemma getstringAux_ok (io : List Nat) (n : Nat) :
    ∀ (cs : Nat → Nat) (off len : Nat) (acc : List Nat) (fuel : Nat),
      n < fuel → len + n ≤ 2001 →
      (∀ j, j < n → io[off + j]? = some (cs j) ∧ cs j ≠ 0) →
      io[off + n]? = some 0 →
      getstringAux io fuel off len acc =
        .ok (acc ++ (List.range n).map cs, off + n + 1) := by
  induction n with
  | zero =>
      intro cs off len acc fuel hf _ _ hz
      obtain ⟨f, rfl⟩ : ∃ f, fuel = f + 1 := ⟨fuel - 1, by omega⟩
      simpa [getstringAux] using hz ▸ rfl
  | succ n ih =>
      intro cs off len acc fuel hf hlen hnz hz
      obtain ⟨f, rfl⟩ : ∃ f, fuel = f + 1 := ⟨fuel - 1, by omega⟩
      obtain ⟨h0, h0nz⟩ := hnz 0 (Nat.succ_pos n)
      have hstep : getstringAux io (f + 1) off len acc =
          getstringAux io f (off + 1) (len + 1) (acc ++ [cs 0]) := by
        simp only [getstringAux]
        rw [show off + 0 = off from rfl] at h0
        rw [h0]
        simp [h0nz, show ¬(len > 2000) by omega]
      rw [hstep]
      have := ih (fun j => cs (j + 1)) (off + 1) (len + 1) (acc ++ [cs 0]) f
        (by omega) (by omega)
        (fun j hj => by
          have := hnz (j + 1) (by omega)
          rwa [show off + (j + 1) = off + 1 + j by omega] at this)
        (by rwa [show off + 1 + n = off + (n + 1) by omega])
      rw [this]
      have harr : acc ++ [cs 0] ++ List.map (fun j => cs (j + 1)) (List.range n)
          = acc ++ List.map cs (List.range (n + 1)) := by
        rw [List.range_succ_eq_map, List.map_cons, List.map_map, List.append_assoc]
        rfl
      rw [harr, show off + 1 + n + 1 = off + (n + 1) + 1 by omega]

/-- The aborting branch of the `getstring` loop: if the next `k` bytes
are all non-NUL and `len + k = 2002` (so the abort guard fires at the
last of them), the loop calls `abort()`. -/
lemma getstringAux_abort (io : List Nat) (k : Nat) :
    ∀ (off len : Nat) (acc : List Nat) (fuel : Nat), 1 ≤ k → k ≤ fuel → len + k = 2002 →
      (∀ j, j < k → ∃ b, io[off + j]? = some b ∧ b ≠ 0) →
      getstringAux io fuel off len acc = .error .aborted := by
  induction k with
  | zero => intro _ _ _ _ h; omega
  | succ k ih =>
      intro off len acc fuel _ hfuel hlen hnz
      obtain ⟨f, rfl⟩ : ∃ f, fuel = f + 1 := ⟨fuel - 1, by omega⟩
      obtain ⟨b, hb, hbnz⟩ := hnz 0 (Nat.succ_pos k)
      rw [show off + 0 = off from rfl] at hb
      by_cases hk : k = 0
      · subst hk
        simp only [getstringAux]
        rw [hb]
        simp [hbnz, show len > 2000 by omega]
      · have hstep : getstringAux io (f + 1) off len acc =
            getstringAux io f (off + 1) (len + 1) (acc ++ [b]) := by
          simp only [getstringAux]
          rw [hb]
          simp [hbnz, show ¬(len > 2000) by omega]
        rw [hstep]
        exact ih (off + 1) (len + 1) (acc ++ [b]) f (by omega) (by omega) (by omega)
          (fun j hj => by
            have := hnz (j + 1) (by omega)
            rwa [show off + (j + 1) = off + 1 + j by omega] at this)

/-- Byte `k` of the `c3io` frame-section image, for the offsets the
decoder visits while reading the entry at `0x1040`. -/
lemma c3io_byte (k : Nat) :
    c3io[0x1040 + k]? = [0x38, 0, 0, 0, 0x40, 0, 0, 0][k]? := by
  unfold c3io
  exact replicate_append_getElem 0x1040 k 0 _

/-- Reading the initial length of the entry at `0x1040` of `c3io`. -/
lemma c3io_getu32 : getu32 c3io 0x1040 = .ok (0x38, 0x1044) := by
  have h0 := c3io_byte 0
  have h1 := c3io_byte 1
  have h2 := c3io_byte 2
  have h3 := c3io_byte 3
  norm_num at h0 h1 h2 h3
  simp [getu32, h0, h1, h2, h3]

/-- Reading the `CIE_id` field of the entry at `0x1040` of `c3io`. -/
lemma c3io_getuint : getuint c3io 0x1044 4 = .ok (0x40, 0x1048) := by
  have h4 := c3io_byte 4
  have h5 := c3io_byte 5
  have h6 := c3io_byte 6
  have h7 := c3io_byte 7
  norm_num at h4 h5 h6 h7
  simp [getuint, leBytes, h4, h5, h6, h7]

/-! ## The claims -/

/-- Claim C1 (counterexample): with the scenario's inputs exactly as the
claim states them — return-address rule `offset(-8)`, CFA rule
`rsp + 8`, `rsp = 0x7fffdff8`, and process memory mapping only address
`0x7fffe000` to `0x402000` — `dwarfUnwind` does not return caller PC
`0x402000`: it reads the return address at `CFA - 8 = 0x7fffdff8`,
which this memory does not map, so the unwind fails with the
memory-read exception. -/
theorem c1_counterexample :
    dwarfUnwind [] c1memClaim x8664IsArchReg (some x8664CfaRestoreRegno) 16
      c1frame c1regs 9 = .error .exc := rfl

/-- Claim C1 (amended): the scenario holds once the mapped word sits at
`CFA - 8 = 0x7fffdff8` (the slot `offset(-8)` addresses): the one-step
unwind returns caller PC `0x402000`, and the caller's stack pointer
(rule `undef` in the row) is set to the CFA, `0x7fffe000`. -/
theorem c1_theorem :
    (dwarfUnwind [] c1memFixed x8664IsArchReg (some x8664CfaRestoreRegno) 16
        c1frame c1regs 9).toOption.map (fun p => (p.2, p.1 7)) =
      some (0x402000, 0x7fffe000) := by decide

/-- Claim C2 (counterexample): the reserved initial-length value
`0xfffffff0` does not yield a decode error: `getlength` returns the
length 0 normally. -/
theorem c2_counterexample : getlength c2io 0 = .ok (0, 4) := by decide

/-- Claim C2 (amended): for a 4-byte initial-length value `v`, the
reserved values `[0xfffffff0, 0xffffffff)` make `getlength` return 0
(no error; callers treat a zero length as end-of-section); the sentinel
`0xffffffff` reads an 8-byte length next; any other value is itself the
length. -/
theorem c2_theorem (io : List Nat) (off v o1 : Nat)
    (h : getu32 io off = .ok (v, o1)) :
    (0xfffffff0 ≤ v → v < 0xffffffff → getlength io off = .ok (0, o1)) ∧
    (v = 0xffffffff → getlength io off = getuint io o1 8) ∧
    (v < 0xfffffff0 → getlength io off = .ok (v, o1)) := by
  refine ⟨fun h1 h2 => ?_, fun h1 => ?_, fun h1 => ?_⟩
  · have hne : ¬v = 0xffffffff := by omega
    simp [getlength, h, h1, hne]
  · subst h1
    simp [getlength, h]
  · have hge : ¬(v ≥ 0xfffffff0) := by omega
    simp [getlength, h, hge]

/-- Claim C2 (witness): the 64-bit sentinel branch of `c2_theorem` at a
concrete buffer. -/
theorem c2_witness : getlength c2io64 0 = .ok (1, 12) := by
  have h := (c2_theorem c2io64 0 0xffffffff 4 (by decide)).2.1 rfl
  rw [h]
  decide

/-- Claim C3 (counterexample): in `.eh_frame`, a non-CIE entry starting
at file offset `0x1040` with `CIE_id = 0x40` references the CIE at
offset `0x1004`, not `0x1000`: the subtraction is taken from the offset
of the `CIE_id` field (`0x1044`), which follows the 4-byte initial
length. -/
theorem c3_counterexample :
    decodeCIEFDEHdr c3io 0x1040 2 .FI_EH_FRAME =
      .ok (some (0x40, some 0x1004, 0x107c)) ∧ (0x1004 : Nat) ≠ 0x1000 := by
  refine ⟨?_, by decide⟩
  simp [decodeCIEFDEHdr, getlength, c3io_getu32, c3io_getuint, isCIE, cieLookupKey]

/-- Claim C3 (amended): for a non-CIE `.eh_frame` entry the referenced
CIE offset is (offset of the `CIE_id` field) − `CIE_id`, i.e.
entry offset + 4 − `CIE_id` when the initial length is the 4-byte form;
in `.debug_frame` the CIE offset is `CIE_id` directly. -/
theorem c3_theorem (io : List Nat) (off len id o2 : Nat)
    (h1 : getu32 io off = .ok (len, off + 4)) (h2 : len < 0xfffffff0)
    (h3 : len ≠ 0) (h4 : getuint io (off + 4) 4 = .ok (id, o2))
    (h5 : id ≠ 0) (h6 : id ≤ off + 4) :
    decodeCIEFDEHdr io off 2 .FI_EH_FRAME =
      .ok (some (id, some ((off + 4 - id) % 2 ^ 64), (off + 4 + len) % 2 ^ 64)) ∧
    decodeCIEFDEHdr io off 2 .FI_DEBUG_FRAME =
      .ok (some (id, (if id = 0xffffffff then none else some id),
        (off + 4 + len) % 2 ^ 64)) := by
  have hge : ¬(len ≥ 0xfffffff0) := by omega
  constructor
  · simp [decodeCIEFDEHdr, getlength, h1, hge, h3, h4, isCIE, h5, cieLookupKey]
    omega
  · simp [decodeCIEFDEHdr, getlength, h1, hge, h3, h4, isCIE, h5, cieLookupKey]

/-- Claim C3 (witness): `c3_theorem` at the concrete section image,
both for `.eh_frame` (CIE at `0x1044 − 0x40 = 0x1004`) and for
`.debug_frame` (CIE at `0x40`). -/
theorem c3_witness :
    decodeCIEFDEHdr c3io 0x1040 2 .FI_EH_FRAME =
      .ok (some (0x40, some 0x1004, 0x107c)) ∧
    decodeCIEFDEHdr c3io 0x1040 2 .FI_DEBUG_FRAME =
      .ok (some (0x40, some 0x40, 0x107c)) := by
  have h := c3_theorem c3io 0x1040 0x38 0x40 0x1048
    (by norm_num [c3io_getu32]) (by norm_num) (by norm_num)
    (by norm_num [c3io_getuint]) (by norm_num) (by norm_num)
  refine ⟨?_, ?_⟩
  · have h1 := h.1
    norm_num at h1
    exact h1
  · have h2 := h.2
    norm_num at h2
    exact h2

/-- Claim C4 (counterexample): the file index does not survive an
`end_sequence`.  Running the line VM on `set_file 2; end_sequence;
copy` emits two rows: the `end_sequence` row carries file index 2, but
the `copy` row — emitted from the post-`end_sequence` state — carries
file index 1 (the reset value), not the 2 the claim predicts. -/
theorem c4_counterexample :
    (lineVMRun lineParamsEx [0x04, 0x02, 0x00, 0x01, 0x01, 0x01] 0 6 5).toOption.map
      (fun r => r.1.map fun st => st.file) = some [2, 1] := by decide

/-- Claim C4 (amended): after executing any `end_sequence` opcode
(after the row carrying `end_sequence = 1` is emitted), the machine
state equals the initial state in every component — address 0, line 1,
column 0, `is_stmt` = default, `basic_block` and `end_sequence`
cleared, and the file index reset to 1 as well. -/
theorem c4_theorem (P : LineParams) (io : List Nat) (s : DwarfLineState)
    (mat : List DwarfLineState) (off len o2 : Nat)
    (hop : 0 < P.opcode_base)
    (h0 : io[off]? = some 0)
    (h1 : getuleb128 io (off + 1) = .ok (len, o2))
    (h2 : io[o2]? = some 1) :
    lineStep P io s mat off =
      .ok (DwarfLineState.initial P,
        mat ++ [{ s with end_sequence := true }], o2 + 1) := by
  have hno : ¬(0 ≥ P.opcode_base) := by omega
  simp [lineStep, readU8, h0, h1, h2, hno, DW_LNE_end_sequence,
    DwarfLineState.initial]

/-- Claim C4 (witness): `c4_theorem` at a concrete mid-program state
with file index 5. -/
theorem c4_witness :
    lineStep lineParamsEx [0x00, 0x01, 0x01]
      { addr := 70, file := 5, line := 9, column := 3, is_stmt := false,
        basic_block := true, end_sequence := false } [] 0 =
      .ok (DwarfLineState.initial lineParamsEx,
        [{ addr := 70, file := 5, line := 9, column := 3, is_stmt := false,
           basic_block := true, end_sequence := true }], 3) := by
  have h := c4_theorem lineParamsEx [0x00, 0x01, 0x01]
    { addr := 70, file := 5, line := 9, column := 3, is_stmt := false,
      basic_block := true, end_sequence := false } [] 0 1 2
    (by decide) (by decide) (by decide) (by decide)
  simpa using h

/-- Claim C5: a special opcode byte `b ≥ opcode_base` advances the
address by `((b - opcode_base) / line_range) * min_insn_length`
(mod 2^64), advances the line by
`line_base + (b - opcode_base) % line_range` (in 32-bit
two's-complement), emits exactly one row, and clears `basic_block`;
with `min_insn_length = 1, line_base = -3, line_range = 12,
opcode_base = 13`, the single byte `0x4E` takes the initial state to
address 5 (increment 5) and line 3 (increment 2). -/
theorem c5_theorem :
    (∀ (P : LineParams) (io : List Nat) (s : DwarfLineState)
        (mat : List DwarfLineState) (off b : Nat),
      0 < P.line_range → io[off]? = some b → P.opcode_base ≤ b →
      lineStep P io s mat off =
        (let s' := { s with
            addr := (s.addr +
              (b - P.opcode_base) / P.line_range * P.min_insn_length) % 2 ^ 64,
            line := lineAdd s.line
              (((b - P.opcode_base) % P.line_range : Nat) + P.line_base) }
         .ok ({ s' with basic_block := false }, mat ++ [s'], off + 1))) ∧
    (lineVMRun lineParamsEx [0x4E] 0 1 3).toOption.map
        (fun r => (r.1.map fun st => (st.addr, st.line, st.basic_block),
          r.2.addr, r.2.line)) =
      some ([(5, 3, false)], 5, 3) := by
  constructor
  · intro P io s mat off b _hr h0 hb
    simp [lineStep, readU8, h0, hb]
  · decide

/-- Claim C5 (witness): the universal part of `c5_theorem` applied to
the scenario's header parameters, the byte `0x4E` and the initial
state (address increment `(78-13)/12 = 5`, line increment
`-3 + (78-13)%12 = 2`). -/
theorem c5_witness :
    lineStep lineParamsEx [0x4E] (DwarfLineState.initial lineParamsEx) [] 0 =
      .ok ({ DwarfLineState.initial lineParamsEx with addr := 5, line := 3 },
        [{ DwarfLineState.initial lineParamsEx with addr := 5, line := 3 }], 1) := by
  have h := c5_theorem.1 lineParamsEx [0x4E] (DwarfLineState.initial lineParamsEx)
    [] 0 0x4E (by decide) (by decide) (by decide)
  simpa using h

/-- Claim C6 (counterexample): a string of 2001 non-NUL bytes whose NUL
arrives only at index 2001 has no terminator within the claimed
2000-byte maximum, yet `getstring` raises no decode error: it returns
the full string and advances past the terminator. -/
theorem c6_counterexample :
    getstring (List.replicate 2001 65 ++ [0]) 0 =
      .ok (List.replicate 2001 65, 2002) := by
  have h := getstringAux_ok (List.replicate 2001 65 ++ [0]) 2001 (fun _ => 65)
    0 0 [] 2002 (by omega) (by omega)
    (fun j hj => by
      refine ⟨?_, by simp⟩
      rw [Nat.zero_add, List.getElem?_append, List.length_replicate,
        if_pos hj, List.getElem?_replicate, if_pos hj])
    (by
      rw [Nat.zero_add, List.getElem?_append, List.length_replicate,
        if_neg (by omega)]
      norm_num)
  have hmap : (List.range 2001).map (fun _ => 65) = List.replicate 2001 65 := by
    simp [Function.const, List.length_range]
  rw [getstring] at *
  rw [h, List.nil_append, hmap]

/-- Claim C6 (amended): `getstring` returns a string in full (and
advances past the terminator) whenever its first NUL arrives within
the first 2002 bytes — so strings of up to 2001 bytes are returned,
not 2000 — and when the first 2002 bytes are all non-NUL it calls
`abort()` (a process abort, not a recoverable decode error). -/
theorem c6_theorem (io : List Nat) (off : Nat) :
    (∀ (cs : Nat → Nat) (n : Nat), n ≤ 2001 →
      (∀ j, j < n → io[off + j]? = some (cs j) ∧ cs j ≠ 0) →
      io[off + n]? = some 0 →
      getstring io off = .ok ((List.range n).map cs, off + n + 1)) ∧
    ((∀ j, j < 2002 → ∃ b, io[off + j]? = some b ∧ b ≠ 0) →
      getstring io off = .error .aborted) := by
  constructor
  · intro cs n hn hnz hz
    have h := getstringAux_ok io n cs off 0 [] 2002 (by omega) (by omega) hnz hz
    simpa [getstring] using h
  · intro hnz
    have h := getstringAux_abort io 2002 off 0 [] 2002 (by omega) (by omega)
      (by omega) hnz
    simpa [getstring] using h

/-- Claim C6 (witness): `c6_theorem` at a two-byte string (returned in
full, cursor past the NUL) and at a buffer of 2002 non-NUL bytes
(abort). -/
theorem c6_witness :
    getstring [65, 66, 0] 0 = .ok ([65, 66], 3) ∧
    getstring (List.replicate 2002 1) 0 = .error .aborted := by
  constructor
  · have h := (c6_theorem [65, 66, 0] 0).1 (fun j => 65 + j) 2 (by omega)
      (by decide) (by decide)
    rw [show (List.range 2).map (fun j => 65 + j) = [65, 66] by decide] at h
    simpa using h
  · refine (c6_theorem _ 0).2 (fun j hj => ⟨1, ?_, by decide⟩)
    rw [Nat.zero_add, List.getElem?_replicate]
    simp [hj]

/-- Claim C7: `DW_CFA_def_cfa_offset_sf` does not decode its operand as
signed LEB128: the source reads it with `getuleb128()`.  On the
instruction bytes `[0x13, 0x78]` — `DW_CFA_def_cfa_offset_sf` with the
SLEB128 encoding of −8 — under `dataAlign = -8`, the claim requires
the CFA offset `(-8) × (-8) = 64`; the code decodes the operand as the
unsigned 120 and stores `120 × (-8) mod 2^64 = 2^64 − 960`.  The CFA
register is left unchanged (0). -/
theorem c7_theorem :
    (execInsns [0x13, 0x78] 1 (-8) 8 0 0 0 2 0 0 5).toOption.map
      (fun f => (f.cfaReg, f.cfaValue.type, f.cfaValue.u1)) =
      some (0, DwarfRegisterType.OFFSET, 2 ^ 64 - 960) ∧
    getsleb128 [0x78] 0 = .ok (-8, 1) ∧
    toUint64 ((-8) * (-8)) = 64 ∧
    (2 ^ 64 - 960 : Nat) ≠ 64 := by
  refine ⟨by decide, by decide, by decide, by decide⟩

/-- Claim C8: LEB128 decode∘encode is not the identity over the full
unsigned range.  Small values round-trip (`300`, and `-8`, `1000000`
for the signed decoder), but the ULEB128 encoding of `2^31`
(`80 80 80 80 08`) decodes to `0xFFFFFFFF80000000`: the 5th byte's
contribution `8 << 28` overflows the 32-bit `int` intermediate of
`result |= (byte & 0x7f) << shift` and is sign-extended into the
64-bit result. -/
theorem c8_theorem :
    getuleb128 (encodeUleb128 300) 0 = .ok (300, 2) ∧
    getsleb128 (encodeSleb128 (-8)) 0 = .ok (-8, 1) ∧
    getsleb128 (encodeSleb128 1000000) 0 = .ok (1000000, 3) ∧
    encodeUleb128 (2 ^ 31) = [0x80, 0x80, 0x80, 0x80, 0x08] ∧
    getuleb128 (encodeUleb128 (2 ^ 31)) 0 = .ok (0xFFFFFFFF80000000, 5) ∧
    (0xFFFFFFFF80000000 : Nat) ≠ 2 ^ 31 := by
  refine ⟨by decide, by decide, by decide, by decide, by decide, by decide⟩

/-- Claim C9: the lazily materialized indexes are idempotent: after the
first call to `units`/`ranges`/`pubnames` the section handle is
cleared, so a second call — even with a different parser, showing no
re-parsing can occur — returns the same state and the same result as
the first. -/
theorem c9_theorem {σ α β γ : Type} (pu pu' : σ → α → α) (pr pr' : σ → β → β)
    (pp pp' : σ → γ → γ) (s : DwarfInfoCache σ α β γ) :
    DwarfInfoCache.units pu' (DwarfInfoCache.units pu s).1 =
      DwarfInfoCache.units pu s ∧
    DwarfInfoCache.ranges pr' (DwarfInfoCache.ranges pr s).1 =
      DwarfInfoCache.ranges pr s ∧
    DwarfInfoCache.pubnames pp' (DwarfInfoCache.pubnames pp s).1 =
      DwarfInfoCache.pubnames pp s := by
  refine ⟨?_, ?_, ?_⟩
  · cases h : s.info <;> simp [DwarfInfoCache.units, h]
  · cases h : s.arangesh <;> simp [DwarfInfoCache.ranges, h]
  · cases h : s.pubnamesh <;> simp [DwarfInfoCache.pubnames, h]

/-- Claim C10 (counterexample): a CFA rule of type `EXPRESSION` whose
expression `DW_OP_const4u 0x1000` evaluates to `0x1000` does not make
`getCFA` return that result: `dwarfEvalExpr` itself pops the result,
and `getCFA` then reads the top of the now-empty stack — undefined
behaviour, not a normal return. -/
theorem c10_counterexample :
    getCFA [0x0c, 0x00, 0x10, 0x00, 0x00] (fun _ => none) c10frame
      (fun _ => 0) 9 = .error .ub ∧
    dwarfEvalExpr [0x0c, 0x00, 0x10, 0x00, 0x00] (fun _ => none)
      (fun _ => 0) 9 0 5 [] = .ok (0x1000, []) := by
  refine ⟨by decide, by decide⟩

/-- Claim C10 (amended): `getCFA` returns normally only when the CFA
rule type is `OFFSET` (returning `regs[cfaReg] + offset` mod 2^64) or
`EXPRESSION` whose evaluation succeeds and leaves a further value
below the popped result (returning that remaining top, not the popped
evaluation result; with nothing left the empty-stack `top` is
undefined behaviour); for every other CFA rule type — including the
all-undef initial frame `DwarfCallFrame.initial` — it calls `abort()`
rather than returning or raising a recoverable error. -/
theorem c10_theorem (io : List Nat) (mem : Nat → Option Nat)
    (regs : Nat → Nat) (fuel : Nat) (frame : DwarfCallFrame) :
    (frame.cfaValue.type ≠ .OFFSET → frame.cfaValue.type ≠ .EXPRESSION →
      getCFA io mem frame regs fuel = .error .aborted) ∧
    (frame.cfaValue.type = .OFFSET →
      getCFA io mem frame regs fuel =
        .ok ((dwarfGetReg regs frame.cfaReg + frame.cfaValue.u1) % 2 ^ 64)) ∧
    (frame.cfaValue.type = .EXPRESSION →
      getCFA io mem frame regs fuel =
        match dwarfEvalExpr io mem regs fuel frame.cfaValue.u1
            (frame.cfaValue.u1 + frame.cfaValue.u2) [] with
        | .error e => .error e
        | .ok (_, []) => .error .ub
        | .ok (_, rv :: _) => .ok rv) ∧
    getCFA io mem DwarfCallFrame.initial regs fuel = .error .aborted := by
  refine ⟨fun h1 h2 => ?_, fun h1 => ?_, fun h1 => ?_, ?_⟩
  · cases htype : frame.cfaValue.type <;>
      simp_all [getCFA]
  · simp [getCFA, h1]
  · simp only [getCFA, h1]
    cases hev : dwarfEvalExpr io mem regs fuel frame.cfaValue.u1
        (frame.cfaValue.u1 + frame.cfaValue.u2) [] with
    | error e => rfl
    | ok p =>
        obtain ⟨rv, stack⟩ := p
        cases stack <;> rfl
  · simp [getCFA, DwarfCallFrame.initial]

/-- Claim C10 (witness): `c10_theorem` at an `OFFSET` frame
(`regs[3] = 100`, offset 5, so the CFA is 105) and at the initial
frame (abort). -/
theorem c10_witness :
    getCFA [] (fun _ => none) c10offsetFrame (fun _ => 100) 1 = .ok 105 ∧
    getCFA [] (fun _ => none) DwarfCallFrame.initial (fun _ => 100) 1 =
      .error .aborted := by
  constructor
  · have h := (c10_theorem [] (fun _ => none) (fun _ => 100) 1 c10offsetFrame).2.1 rfl
    rw [h]
    decide
  · exact (c10_theorem [] (fun _ => none) (fun _ => 100) 1 c10offsetFrame).2.2.2

end Pstack
